import Mathlib

/-!
Shallow embedding of `src/lib/RequestProxyStream.js` from the
`uws-compat-layer` repository: the class `RequestToProxyStream extends
Readable`, which bridges the push-based uWebSockets.js request body
(`res.onData((chunk, isLast) => ...)`, where `chunk` is an `ArrayBuffer`
owned by uWS and invalidated after the callback returns) into a Node.js
`Readable` pull stream, buffering chunks in `#sendQueue` under
backpressure, bounded by `#maxStackedBuffers`.

The class's own code (`#trySendChunk`, `#tryEnd`, `#close`, `_read`,
`_destroy`, the constructor's `onData` callback) is translated function by
function.  The Node.js `Readable` operations the class calls (`push`,
`push(null)`, `destroy`) are modelled after their documented semantics:
`readable.push(chunk)` appends the chunk to the stream's internal buffer
(unless the stream has already ended or been destroyed) and returns `true`
iff more data may be pushed — the return value signals backpressure, it
does not undo the append; `readable.destroy(err)` is effective only on the
first call, invokes `_destroy` synchronously, and discards the internal
buffer.  Whether a given `push` reports readiness depends on the
`highWaterMark` accounting of the surrounding stream machinery, which is
abstracted here as a boolean oracle supplied by the environment, so all
theorems quantify over every possible readiness schedule.
-/

namespace RPS

/-- A byte buffer as handled by the bridge.  `owned = true` means the bytes
live in memory allocated by the bridge itself (`Buffer.alloc` plus
`buffer.copy`); `owned = false` means the buffer is a view sharing memory
with the source's `ArrayBuffer` — per the Node.js documentation,
`Buffer.from(arrayBuffer)` creates such a view without copying, and uWS
may reuse or invalidate that memory after the `onData` callback returns. -/
structure Buf where
  owned : Bool
  bytes : List Nat
  deriving Repr, DecidableEq

/-- The bridge state: the fields of `RequestToProxyStream`
(`sendQueue`, `shouldClose`, `maxStackedBuffers`) together with the state
of the underlying Node `Readable` (`buffered` — the internal buffer filled
by `push`; `observed` — chunks the downstream consumer has read out of that
buffer; `ended` — `push(null)` happened; `destroyed`; `errMsg` — the error
carried by the first effective `destroy`) and three history variables that
record events for specification purposes only and influence no behaviour:
`endSignals` counts effective `push(null)` calls, `queueLenAtEnd` records
`sendQueue.length` at the instant end-of-data was signalled, and
`destroyCount` counts effective `destroy` calls. -/
structure St where
  sendQueue : List Buf
  shouldClose : Bool
  maxStackedBuffers : Nat
  buffered : List Buf
  observed : List Buf
  ended : Bool
  destroyed : Bool
  errMsg : Option String
  endSignals : Nat
  queueLenAtEnd : Option Nat
  destroyCount : Nat
  deriving Repr, DecidableEq

/-- The error message of `this.destroy(new Error(...))` in `#trySendChunk`. -/
def overflowMsg : String := "Max backpressure threshold reached !"

/-- `config.maxStackedBuffers || 25`: JavaScript `||` takes the default
whenever the configured value is falsy — when the key is absent
(`undefined`, modelled as `none`) and also when it is the number `0`. -/
def orDefault (v : Option Nat) : Nat :=
  match v with
  | none => 25
  | some n => if n = 0 then 25 else n

/-- `Buffer.from(chunk)` applied to the `ArrayBuffer` handed to the
`onData` callback: a view over the source's memory, no copy is made. -/
def bufferFrom (bytes : List Nat) : Buf := ⟨false, bytes⟩

/-- `createBufferCopy(buffer)`: `Buffer.alloc(buffer.byteLength)` followed
by `buffer.copy(copy)` — a fresh buffer owned by the bridge holding the
same bytes. -/
def createBufferCopy (b : Buf) : Buf := ⟨true, b.bytes⟩

/-- Node's `readable.push(chunk)` with a data chunk: ignored (returning
`false`) on a destroyed or ended stream, otherwise the chunk is appended to
the stream's internal buffer and the return value reports whether more data
may be pushed (the environment's readiness answer `ready`). -/
def pushBuf (s : St) (c : Buf) (ready : Bool) : St × Bool :=
  if s.destroyed || s.ended then (s, false)
  else ({ s with buffered := s.buffered ++ [c] }, ready)

/-- Node's `readable.push(null)`: signals end-of-data, effective only if
the stream has neither ended nor been destroyed.  The two history variables
record that the signal fired and the pending-queue length at that instant. -/
def pushNull (s : St) : St :=
  if s.destroyed || s.ended then s
  else
    { s with ended := true, endSignals := s.endSignals + 1,
             queueLenAtEnd := some s.sendQueue.length }

/-- Node's `readable.destroy(err)` wrapping the class's `_destroy`:
only the first call has an effect; `_destroy` clears `#sendQueue` and
forwards the error through its callback; the stream machinery discards the
internal buffer. -/
def destroyS (s : St) (e : Option String) : St :=
  if s.destroyed then s
  else
    { s with destroyed := true, sendQueue := [], buffered := [],
             errMsg := e, destroyCount := s.destroyCount + 1 }

/-- `#close()`: `this.push(null); this.destroy();`. -/
def close (s : St) : St := destroyS (pushNull s) none

/-- `#tryEnd()`: set `#shouldClose`, and close immediately when
`#sendQueue` is empty. -/
def tryEnd (s : St) : St :=
  let s1 := { s with shouldClose := true }
  if s1.sendQueue.length = 0 then close s1 else s1

/-- `#trySendChunk(buffer)`: an empty chunk only re-checks the closing
condition and counts as success; otherwise push a fresh copy downstream,
and if the push reports saturation either destroy with the backpressure
error (queue already at `#maxStackedBuffers`) or append the original
`buffer` to `#sendQueue`, returning `false`; a ready push returns `true`. -/
def trySendChunk (s : St) (b : Buf) (ready : Bool) : St × Bool :=
  if b.bytes.length = 0 then
    (tryEnd s, true)
  else
    let p := pushBuf s (createBufferCopy b) ready
    if p.2 = false then
      if p.1.sendQueue.length = p.1.maxStackedBuffers then
        (destroyS p.1 (some overflowMsg), false)
      else
        ({ p.1 with sendQueue := p.1.sendQueue ++ [b] }, false)
    else
      (p.1, true)

/-- The loop body of `_read`: while `#sendQueue` is non-empty and
`#trySendChunk(#sendQueue[0])` succeeds, `splice(0, 1)` the head.  The
loop runs at most one iteration per queue element, so the initial queue
length bounds the iterations and is used as fuel; each iteration consumes
one readiness answer from the oracle. -/
def readLoop : Nat → List Bool → St → St
  | 0, _, s => s
  | fuel + 1, oracle, s =>
    match s.sendQueue with
    | [] => s
    | c :: _ =>
      let p := trySendChunk s c (oracle.headD false)
      if p.2 then
        readLoop fuel oracle.tail { p.1 with sendQueue := p.1.sendQueue.drop 1 }
      else
        p.1

/-- `_read(n)`: drain the queue, then close if the closing flag is set and
the queue is empty. -/
def readHook (s : St) (oracle : List Bool) : St :=
  let s1 := readLoop s.sendQueue.length oracle s
  if s1.shouldClose = true ∧ s1.sendQueue.length = 0 then close s1 else s1

/-- One consumer drain request: the consumer takes whatever sits in the
`Readable`'s internal buffer, and the stream machinery invokes the `_read`
hook to ask for more.  Node never invokes `_read` on a destroyed stream. -/
def readStep (s : St) (oracle : List Bool) : St :=
  if s.destroyed = true then s
  else readHook { s with observed := s.observed ++ s.buffered, buffered := [] } oracle

/-- The constructor's `onData` callback:
`this.#trySendChunk(Buffer.from(chunk)); if (isLast) this.#tryEnd();`,
with `ready` the readiness answer of the (at most one) push performed. -/
def onData (s : St) (bytes : List Nat) (isLast : Bool) (ready : Bool) : St :=
  let s1 := (trySendChunk s (bufferFrom bytes) ready).1
  if isLast then tryEnd s1 else s1

/-- The events the environment can direct at the bridge: a chunk delivery
from the uWS source, a drain request from the consumer, and an external
`destroy` call. -/
inductive Ev where
  | data (bytes : List Nat) (isLast : Bool) (ready : Bool)
  | read (oracle : List Bool)
  | abort (err : Option String)
  deriving Repr, DecidableEq

/-- Dispatch one event. -/
def step (s : St) : Ev → St
  | .data bytes isLast ready => onData s bytes isLast ready
  | .read oracle => readStep s oracle
  | .abort e => destroyS s e

/-- The state right after the constructor ran with configuration
`config.maxStackedBuffers = cfg` (`none` = key absent). -/
def initSt (cfg : Option Nat) : St :=
  { sendQueue := [], shouldClose := false, maxStackedBuffers := orDefault cfg,
    buffered := [], observed := [], ended := false, destroyed := false,
    errMsg := none, endSignals := 0, queueLenAtEnd := none, destroyCount := 0 }

/-- Run the bridge from construction through a sequence of events. -/
def runS (cfg : Option Nat) (evs : List Ev) : St :=
  evs.foldl step (initSt cfg)

/-- A chunk-delivery event with `isLast = false` whose push reports
saturation (consumer not draining). -/
def dataEv (c : List Nat) : Ev := Ev.data c false false

/-- All buffers in the list are non-empty. -/
def nonemptyChunks (l : List Buf) : Bool :=
  l.all fun c => !c.bytes.isEmpty

/-- The bytes fed into the bridge by a list of events, concatenated. -/
def fedBytes (evs : List Ev) : List Nat :=
  (evs.map fun e => match e with | .data b _ _ => b | _ => []).flatten

/-- The bytes the consumer has read out of the stream, concatenated. -/
def observedBytes (s : St) : List Nat :=
  (s.observed.map Buf.bytes).flatten

/-- The inductive invariant of the bridge: the pending queue never exceeds
the threshold; end-of-data has been signalled exactly once iff the stream
has ended; end-of-data implies the closing flag was set and the pending
queue was empty at the instant of the signal; and no zero-length chunk is
ever held in the pending queue, the internal buffer, or the consumer's
output. -/
def Inv (s : St) : Prop :=
  s.sendQueue.length ≤ s.maxStackedBuffers ∧
  s.endSignals = (if s.ended then 1 else 0) ∧
  (s.ended = true → s.shouldClose = true) ∧
  (s.ended = true → s.queueLenAtEnd = some 0) ∧
  (∀ c ∈ s.sendQueue, c.bytes ≠ []) ∧
  (∀ c ∈ s.buffered, c.bytes ≠ []) ∧
  (∀ c ∈ s.observed, c.bytes ≠ [])

/-- `t` agrees with `s` on every consumer-visible and terminal field:
consumer output, internal buffer, destruction status, error, and
end-of-data bookkeeping.  (The pending queue and the closing flag are
deliberately not included.) -/
def frozenFrom (s t : St) : Prop :=
  t.observed = s.observed ∧ t.buffered = s.buffered ∧
  t.destroyed = s.destroyed ∧ t.errMsg = s.errMsg ∧
  t.destroyCount = s.destroyCount ∧ t.ended = s.ended ∧
  t.endSignals = s.endSignals

/-- A bridge state with `maxStackedBuffers = 1` whose pending queue already
holds one chunk (used to instantiate theorems at a concrete input). -/
def sampleQ1 : St :=
  { initSt (some 1) with sendQueue := [⟨false, [1]⟩] }

/-- A destroyed bridge state (used to instantiate theorems at a concrete
input). -/
def sampleDead : St :=
  { initSt none with destroyed := true, destroyCount := 1,
                     errMsg := some overflowMsg }

theorem inv_initSt (cfg : Option Nat) : Inv (initSt cfg) := by
  simp [Inv, initSt]

theorem inv_destroyS {s : St} (h : Inv s) (e : Option String) :
    Inv (destroyS s e) := by
  obtain ⟨h1, h2, h3, h4, h5, h6, h7⟩ := h
  unfold destroyS
  split
  · exact ⟨h1, h2, h3, h4, h5, h6, h7⟩
  · exact ⟨by simp, by simpa using h2, by simpa using h3, by simpa using h4,
      by simp, by simp, by simpa using h7⟩

theorem inv_pushNull {s : St} (h : Inv s) (hq : s.sendQueue.length = 0)
    (hc : s.shouldClose = true) : Inv (pushNull s) := by
  obtain ⟨h1, h2, h3, h4, h5, h6, h7⟩ := h
  unfold pushNull
  split
  · exact ⟨h1, h2, h3, h4, h5, h6, h7⟩
  · rename_i hg
    simp only [Bool.or_eq_true] at hg
    push_neg at hg
    refine ⟨by simpa using h1, ?_, by simpa using hc, by simp [hq],
      by simpa using h5, by simpa using h6, by simpa using h7⟩
    have : s.ended = false := by
      cases hse : s.ended
      · rfl
      · exact absurd hse hg.2
    simp [this] at h2
    simp [h2]

theorem inv_close {s : St} (h : Inv s) (hq : s.sendQueue.length = 0)
    (hc : s.shouldClose = true) : Inv (close s) :=
  inv_destroyS (inv_pushNull h hq hc) none

theorem inv_tryEnd {s : St} (h : Inv s) : Inv (tryEnd s) := by
  obtain ⟨h1, h2, h3, h4, h5, h6, h7⟩ := h
  simp only [tryEnd]
  split
  · rename_i hq
    exact inv_close
      ⟨by simpa using h1, by simpa using h2, by simp, by simpa using h4,
        by simpa using h5, by simpa using h6, by simpa using h7⟩
      (by simpa using hq) (by simp)
  · exact ⟨by simpa using h1, by simpa using h2, by simp, by simpa using h4,
      by simpa using h5, by simpa using h6, by simpa using h7⟩

theorem inv_pushBuf {s : St} (h : Inv s) {c : Buf} (hb : c.bytes ≠ [])
    (r : Bool) : Inv (pushBuf s c r).1 := by
  obtain ⟨h1, h2, h3, h4, h5, h6, h7⟩ := h
  unfold pushBuf
  split
  · exact ⟨h1, h2, h3, h4, h5, h6, h7⟩
  · refine ⟨by simpa using h1, by simpa using h2, by simpa using h3,
      by simpa using h4, by simpa using h5, ?_, by simpa using h7⟩
    intro x hx
    simp at hx
    rcases hx with hx | hx
    · exact h6 x hx
    · subst hx; exact hb

theorem pushBuf_sendQueue (s : St) (c : Buf) (r : Bool) :
    (pushBuf s c r).1.sendQueue = s.sendQueue := by
  unfold pushBuf
  split <;> simp

theorem pushBuf_max (s : St) (c : Buf) (r : Bool) :
    (pushBuf s c r).1.maxStackedBuffers = s.maxStackedBuffers := by
  unfold pushBuf
  split <;> simp

theorem inv_trySendChunk {s : St} (h : Inv s) (b : Buf) (r : Bool) :
    Inv (trySendChunk s b r).1 := by
  simp only [trySendChunk]
  split
  · exact inv_tryEnd h
  · rename_i hb
    have hb' : b.bytes ≠ [] := by
      intro hcon
      simp [hcon] at hb
    have hp : Inv (pushBuf s (createBufferCopy b) r).1 :=
      inv_pushBuf h (by simpa [createBufferCopy] using hb') r
    split
    · split
      · exact inv_destroyS hp _
      · rename_i hne
        obtain ⟨h1, h2, h3, h4, h5, h6, h7⟩ := hp
        refine ⟨?_, by simpa using h2, by simpa using h3, by simpa using h4,
          ?_, by simpa using h6, by simpa using h7⟩
        · simp only [List.length_append, List.length_cons, List.length_nil]
          simp at hne ⊢
          omega
        · intro x hx
          simp at hx
          rcases hx with hx | hx
          · exact h5 x hx
          · subst hx; exact hb'
    · exact hp

theorem inv_dropHead {s : St} (h : Inv s) :
    Inv { s with sendQueue := s.sendQueue.drop 1 } := by
  obtain ⟨h1, h2, h3, h4, h5, h6, h7⟩ := h
  refine ⟨?_, by simpa using h2, by simpa using h3, by simpa using h4, ?_,
    by simpa using h6, by simpa using h7⟩
  · simp only [List.length_drop]
    simp
    omega
  · intro x hx
    simp at hx
    exact h5 x (List.tail_subset s.sendQueue hx)

theorem inv_readLoop {s : St} (h : Inv s) (fuel : Nat) (oracle : List Bool) :
    Inv (readLoop fuel oracle s) := by
  induction fuel generalizing s oracle with
  | zero => exact h
  | succ n ih =>
    simp only [readLoop]
    split
    · exact h
    · rename_i c rest hq
      have hp := inv_trySendChunk h c (oracle.headD false)
      split
      · exact ih (inv_dropHead hp) oracle.tail
      · exact hp

theorem inv_readHook {s : St} (h : Inv s) (oracle : List Bool) :
    Inv (readHook s oracle) := by
  simp only [readHook]
  split
  · rename_i hc
    exact inv_close (inv_readLoop h _ oracle) hc.2 hc.1
  · exact inv_readLoop h _ oracle

theorem inv_readStep {s : St} (h : Inv s) (oracle : List Bool) :
    Inv (readStep s oracle) := by
  obtain ⟨h1, h2, h3, h4, h5, h6, h7⟩ := h
  simp only [readStep]
  split
  · exact ⟨h1, h2, h3, h4, h5, h6, h7⟩
  · refine inv_readHook ⟨by simpa using h1, by simpa using h2,
      by simpa using h3, by simpa using h4, by simpa using h5, by simp, ?_⟩
      oracle
    intro x hx
    simp at hx
    rcases hx with hx | hx
    · exact h7 x hx
    · exact h6 x hx

theorem inv_onData {s : St} (h : Inv s) (bytes : List Nat) (isLast ready : Bool) :
    Inv (onData s bytes isLast ready) := by
  simp only [onData]
  have h1 := inv_trySendChunk h (bufferFrom bytes) ready
  split
  · exact inv_tryEnd h1
  · exact h1

theorem inv_step {s : St} (h : Inv s) (e : Ev) : Inv (step s e) := by
  cases e with
  | data bytes isLast ready => exact inv_onData h bytes isLast ready
  | read oracle => exact inv_readStep h oracle
  | abort err => exact inv_destroyS h err

theorem inv_foldl {s : St} (h : Inv s) (evs : List Ev) :
    Inv (List.foldl step s evs) := by
  induction evs generalizing s with
  | nil => exact h
  | cons e rest ih => exact ih (inv_step h e)

theorem inv_runS (cfg : Option Nat) (evs : List Ev) : Inv (runS cfg evs) :=
  inv_foldl (inv_initSt cfg) evs

theorem frozenFrom_trans {s t u : St} (h1 : frozenFrom s t)
    (h2 : frozenFrom t u) : frozenFrom s u := by
  obtain ⟨a1, a2, a3, a4, a5, a6, a7⟩ := h1
  obtain ⟨b1, b2, b3, b4, b5, b6, b7⟩ := h2
  exact ⟨b1.trans a1, b2.trans a2, b3.trans a3, b4.trans a4, b5.trans a5,
    b6.trans a6, b7.trans a7⟩

theorem destroyS_dead {s : St} (hd : s.destroyed = true) (e : Option String) :
    destroyS s e = s := by
  simp [destroyS, hd]

theorem pushNull_dead {s : St} (hd : s.destroyed = true) : pushNull s = s := by
  simp [pushNull, hd]

theorem close_dead {s : St} (hd : s.destroyed = true) : close s = s := by
  rw [close, pushNull_dead hd, destroyS_dead hd]

theorem tryEnd_dead {s : St} (hd : s.destroyed = true) :
    tryEnd s = { s with shouldClose := true } := by
  simp only [tryEnd]
  split
  · exact close_dead (by simpa using hd)
  · rfl

theorem trySendChunk_dead {s : St} (hd : s.destroyed = true) (b : Buf)
    (r : Bool) : frozenFrom s (trySendChunk s b r).1 := by
  simp only [trySendChunk]
  split
  · rw [tryEnd_dead hd]
    exact ⟨rfl, rfl, rfl, rfl, rfl, rfl, rfl⟩
  · have hp : pushBuf s (createBufferCopy b) r = (s, false) := by
      simp [pushBuf, hd]
    split
    · split
      · rw [hp]
        show frozenFrom s (destroyS s (some overflowMsg))
        rw [destroyS_dead hd]
        exact ⟨rfl, rfl, rfl, rfl, rfl, rfl, rfl⟩
      · rw [hp]
        exact ⟨rfl, rfl, rfl, rfl, rfl, rfl, rfl⟩
    · rw [hp]
      exact ⟨rfl, rfl, rfl, rfl, rfl, rfl, rfl⟩

theorem onData_dead {s : St} (hd : s.destroyed = true) (bytes : List Nat)
    (isLast ready : Bool) : frozenFrom s (onData s bytes isLast ready) := by
  simp only [onData]
  have h1 := trySendChunk_dead hd (bufferFrom bytes) ready
  split
  · refine frozenFrom_trans h1 ?_
    rw [tryEnd_dead (h1.2.2.1.trans hd)]
    exact ⟨rfl, rfl, rfl, rfl, rfl, rfl, rfl⟩
  · exact h1

theorem readStep_dead {s : St} (hd : s.destroyed = true) (oracle : List Bool) :
    readStep s oracle = s := by
  simp [readStep, hd]

theorem step_dead {s : St} (hd : s.destroyed = true) (e : Ev) :
    frozenFrom s (step s e) := by
  cases e with
  | data bytes isLast ready => exact onData_dead hd bytes isLast ready
  | read oracle =>
    rw [step, readStep_dead hd]
    exact ⟨rfl, rfl, rfl, rfl, rfl, rfl, rfl⟩
  | abort err =>
    rw [step, destroyS_dead hd]
    exact ⟨rfl, rfl, rfl, rfl, rfl, rfl, rfl⟩

theorem foldl_dead {s : St} (hd : s.destroyed = true) (evs : List Ev) :
    frozenFrom s (List.foldl step s evs) := by
  induction evs generalizing s with
  | nil => exact ⟨rfl, rfl, rfl, rfl, rfl, rfl, rfl⟩
  | cons e rest ih =>
    have h1 := step_dead hd e
    exact frozenFrom_trans h1 (ih (h1.2.2.1.trans hd))

theorem trySendChunk_empty {s : St} {b : Buf} (hb : b.bytes = []) (r : Bool) :
    trySendChunk s b r = (tryEnd s, true) := by
  simp only [trySendChunk]
  rw [if_pos (by simp [hb])]

theorem trySendChunk_overflow {s : St} {b : Buf} {r : Bool}
    (hb : b.bytes ≠ []) (h2 : (pushBuf s (createBufferCopy b) r).2 = false)
    (h3 : (pushBuf s (createBufferCopy b) r).1.sendQueue.length
      = (pushBuf s (createBufferCopy b) r).1.maxStackedBuffers) :
    trySendChunk s b r
      = (destroyS (pushBuf s (createBufferCopy b) r).1 (some overflowMsg),
         false) := by
  simp only [trySendChunk]
  rw [if_neg (by simpa using hb), if_pos h2, if_pos h3]

theorem trySendChunk_enqueue {s : St} {b : Buf} {r : Bool}
    (hb : b.bytes ≠ []) (h2 : (pushBuf s (createBufferCopy b) r).2 = false)
    (h3 : ¬ (pushBuf s (createBufferCopy b) r).1.sendQueue.length
      = (pushBuf s (createBufferCopy b) r).1.maxStackedBuffers) :
    trySendChunk s b r
      = ({ (pushBuf s (createBufferCopy b) r).1 with
           sendQueue := (pushBuf s (createBufferCopy b) r).1.sendQueue ++ [b] },
         false) := by
  simp only [trySendChunk]
  rw [if_neg (by simpa using hb), if_pos h2, if_neg h3]

theorem trySendChunk_sent {s : St} {b : Buf} {r : Bool}
    (hb : b.bytes ≠ []) (h2 : ¬ (pushBuf s (createBufferCopy b) r).2 = false) :
    trySendChunk s b r = ((pushBuf s (createBufferCopy b) r).1, true) := by
  simp only [trySendChunk]
  rw [if_neg (by simpa using hb), if_neg h2]

theorem readLoop_succ_cons {fuel : Nat} {oracle : List Bool} {s : St}
    {c : Buf} {rest : List Buf} (hq : s.sendQueue = c :: rest) :
    readLoop (fuel + 1) oracle s
      = if (trySendChunk s c (oracle.headD false)).2 then
          readLoop fuel oracle.tail
            { (trySendChunk s c (oracle.headD false)).1 with
              sendQueue :=
                (trySendChunk s c (oracle.headD false)).1.sendQueue.drop 1 }
        else (trySendChunk s c (oracle.headD false)).1 := by
  simp only [readLoop, hq]

theorem readLoop_nilQueue {s : St} (h : s.sendQueue = []) (fuel : Nat)
    (oracle : List Bool) : readLoop fuel oracle s = s := by
  cases fuel with
  | zero => rfl
  | succ n => simp only [readLoop, h]

theorem pushNull_sendQueue (s : St) : (pushNull s).sendQueue = s.sendQueue := by
  simp only [pushNull]
  split <;> rfl

theorem pushNull_destroyCount (s : St) :
    (pushNull s).destroyCount = s.destroyCount := by
  simp only [pushNull]
  split <;> rfl

theorem pushBuf_destroyCount (s : St) (c : Buf) (r : Bool) :
    (pushBuf s c r).1.destroyCount = s.destroyCount := by
  simp only [pushBuf]
  split <;> rfl

theorem destroyS_cases (s : St) (e : Option String) :
    destroyS s e = s ∨ (destroyS s e).sendQueue = [] := by
  simp only [destroyS]
  split
  · exact Or.inl rfl
  · exact Or.inr rfl

theorem close_keeps_nil {s : St} (h : s.sendQueue = []) :
    (close s).sendQueue = [] := by
  rcases destroyS_cases (pushNull s) none with hc | hc
  · rw [close, hc, pushNull_sendQueue]
    exact h
  · exact hc

theorem tryEnd_keeps_nil {s : St} (h : s.sendQueue = []) :
    (tryEnd s).sendQueue = [] := by
  simp only [tryEnd]
  split
  · exact close_keeps_nil (by simpa using h)
  · rename_i hc
    exact absurd (by simpa using h) (by simpa using hc)

theorem destroyCount_close {s : St}
    (h : (close s).destroyCount ≠ s.destroyCount) :
    (close s).sendQueue = [] := by
  rcases destroyS_cases (pushNull s) none with hc | hc
  · rw [close, hc, pushNull_destroyCount] at h
    exact absurd rfl h
  · exact hc

theorem destroyCount_tryEnd {s : St}
    (h : (tryEnd s).destroyCount ≠ s.destroyCount) :
    (tryEnd s).sendQueue = [] := by
  rw [tryEnd] at h ⊢
  split at h
  · rename_i hq
    rw [if_pos hq]
    exact destroyCount_close h
  · rename_i hq
    rw [if_neg hq]
    exact absurd rfl h

theorem destroyCount_trySendChunk {s : St} {b : Buf} {r : Bool}
    (h : (trySendChunk s b r).1.destroyCount ≠ s.destroyCount) :
    (trySendChunk s b r).1.sendQueue = [] := by
  by_cases hb : b.bytes = []
  · rw [trySendChunk_empty hb r] at h ⊢
    exact destroyCount_tryEnd h
  · by_cases h2 : (pushBuf s (createBufferCopy b) r).2 = false
    · by_cases h3 : (pushBuf s (createBufferCopy b) r).1.sendQueue.length
        = (pushBuf s (createBufferCopy b) r).1.maxStackedBuffers
      · rw [trySendChunk_overflow hb h2 h3] at h ⊢
        rcases destroyS_cases (pushBuf s (createBufferCopy b) r).1
            (some overflowMsg) with hc | hc
        · rw [show
            ((destroyS (pushBuf s (createBufferCopy b) r).1 (some overflowMsg),
              false) : St × Bool).1
              = destroyS (pushBuf s (createBufferCopy b) r).1 (some overflowMsg)
            from rfl, hc, pushBuf_destroyCount] at h
          exact absurd rfl h
        · exact hc
      · rw [trySendChunk_enqueue hb h2 h3] at h
        simp [pushBuf_destroyCount] at h
    · rw [trySendChunk_sent hb h2] at h
      rw [show ((pushBuf s (createBufferCopy b) r).1, true).1
          = (pushBuf s (createBufferCopy b) r).1 from rfl,
        pushBuf_destroyCount] at h
      exact absurd rfl h

theorem destroyCount_onData {s : St} {bytes : List Nat} {isLast ready : Bool}
    (h : (onData s bytes isLast ready).destroyCount ≠ s.destroyCount) :
    (onData s bytes isLast ready).sendQueue = [] := by
  rw [onData] at h ⊢
  split at h
  · rename_i hl
    rw [if_pos hl]
    by_cases hc :
      (trySendChunk s (bufferFrom bytes) ready).1.destroyCount = s.destroyCount
    · rw [← hc] at h
      exact destroyCount_tryEnd h
    · exact tryEnd_keeps_nil (destroyCount_trySendChunk hc)
  · rename_i hl
    rw [if_neg hl]
    exact destroyCount_trySendChunk h

theorem destroyCount_readLoop {fuel : Nat} {oracle : List Bool} {s : St}
    (h : (readLoop fuel oracle s).destroyCount ≠ s.destroyCount) :
    (readLoop fuel oracle s).sendQueue = [] := by
  induction fuel generalizing s oracle with
  | zero => exact absurd rfl h
  | succ n ih =>
    cases hq : s.sendQueue with
    | nil =>
      rw [readLoop_nilQueue hq] at h
      exact absurd rfl h
    | cons c rest =>
      rw [readLoop_succ_cons hq] at h ⊢
      by_cases h2 : (trySendChunk s c (oracle.headD false)).2 = true
      · rw [if_pos h2] at h ⊢
        by_cases hc :
          (trySendChunk s c (oracle.headD false)).1.destroyCount
            = s.destroyCount
        · by_cases hc2 :
            (readLoop n oracle.tail
              { (trySendChunk s c (oracle.headD false)).1 with
                sendQueue :=
                  (trySendChunk s c (oracle.headD false)).1.sendQueue.drop 1
              }).destroyCount
            = ({ (trySendChunk s c (oracle.headD false)).1 with
                 sendQueue :=
                   (trySendChunk s c (oracle.headD false)).1.sendQueue.drop 1
               } : St).destroyCount
          · rw [hc2] at h
            exact absurd hc h
          · exact ih hc2
        · have hnil := destroyCount_trySendChunk hc
          have hnil2 :
              ({ (trySendChunk s c (oracle.headD false)).1 with
                 sendQueue :=
                   (trySendChunk s c (oracle.headD false)).1.sendQueue.drop 1
               } : St).sendQueue = [] := by
            show (trySendChunk s c (oracle.headD false)).1.sendQueue.drop 1 = []
            rw [hnil]
            rfl
          rw [readLoop_nilQueue hnil2]
          exact hnil2
      · rw [if_neg h2] at h ⊢
        exact destroyCount_trySendChunk h

theorem destroyCount_readHook {s : St} {oracle : List Bool}
    (h : (readHook s oracle).destroyCount ≠ s.destroyCount) :
    (readHook s oracle).sendQueue = [] := by
  rw [readHook] at h ⊢
  split at h
  · rename_i hc
    rw [if_pos hc]
    exact close_keeps_nil (List.length_eq_zero.mp hc.2)
  · rename_i hc
    rw [if_neg hc]
    exact destroyCount_readLoop h

theorem destroyCount_readStep {s : St} {oracle : List Bool}
    (h : (readStep s oracle).destroyCount ≠ s.destroyCount) :
    (readStep s oracle).sendQueue = [] := by
  rw [readStep] at h ⊢
  split at h
  · exact absurd rfl h
  · rename_i hd
    rw [if_neg hd]
    exact destroyCount_readHook h

theorem destroyCount_step {s : St} {e : Ev}
    (h : (step s e).destroyCount ≠ s.destroyCount) :
    (step s e).sendQueue = [] := by
  cases e with
  | data bytes isLast ready => exact destroyCount_onData h
  | read oracle => exact destroyCount_readStep h
  | abort err =>
    rcases destroyS_cases s err with hc | hc
    · rw [step, hc] at h
      exact absurd rfl h
    · exact hc

theorem onData_notLast (s : St) (bytes : List Nat) (ready : Bool) :
    onData s bytes false ready = (trySendChunk s (bufferFrom bytes) ready).1 := by
  simp [onData]

theorem saturatedPush {s : St} (hd : s.destroyed = false) (he : s.ended = false)
    (b : Buf) :
    pushBuf s b false = ({ s with buffered := s.buffered ++ [b] }, false) := by
  simp [pushBuf, hd, he]

theorem feedFalse (chunks : List (List Nat)) :
    ∀ s : St, (∀ c ∈ chunks, c ≠ []) → s.destroyed = false → s.ended = false →
      chunks.length + s.sendQueue.length ≤ s.maxStackedBuffers →
      List.foldl step s (chunks.map dataEv)
        = { s with
            sendQueue := s.sendQueue ++ chunks.map bufferFrom,
            buffered :=
              s.buffered ++ chunks.map fun c => (⟨true, c⟩ : Buf) } := by
  induction chunks with
  | nil =>
    intro s hne hd he hlen
    simp
  | cons c cs ih =>
    intro s hne hd he hlen
    have hc : c ≠ [] := hne c (by simp)
    have hpush : pushBuf s (createBufferCopy (bufferFrom c)) false
        = ({ s with buffered := s.buffered ++ [⟨true, c⟩] }, false) := by
      rw [saturatedPush hd he]
      rfl
    have h2 : (pushBuf s (createBufferCopy (bufferFrom c)) false).2 = false := by
      rw [hpush]
    have h3 :
        ¬ (pushBuf s (createBufferCopy (bufferFrom c)) false).1.sendQueue.length
          = (pushBuf s (createBufferCopy (bufferFrom c))
              false).1.maxStackedBuffers := by
      rw [hpush]
      simp only [List.length_cons] at hlen
      intro hcon
      simp at hcon
      omega
    have hstep : step s (dataEv c)
        = { s with buffered := s.buffered ++ [⟨true, c⟩],
                   sendQueue := s.sendQueue ++ [bufferFrom c] } := by
      show onData s c false false = _
      rw [onData_notLast,
        trySendChunk_enqueue (by simpa [bufferFrom] using hc) h2 h3, hpush]
    have hlen' :
        cs.length + (s.sendQueue ++ [bufferFrom c]).length
          ≤ s.maxStackedBuffers := by
      simp only [List.length_append, List.length_cons, List.length_nil] at hlen ⊢
      omega
    have hrec := ih
      { s with buffered := s.buffered ++ [⟨true, c⟩],
               sendQueue := s.sendQueue ++ [bufferFrom c] }
      (fun x hx => hne x (by simp [hx])) hd he hlen'
    rw [List.map_cons, List.foldl_cons, hstep, hrec]
    simp [List.append_assoc]

theorem pushBuf_errMsg (s : St) (c : Buf) (r : Bool) :
    (pushBuf s c r).1.errMsg = s.errMsg := by
  simp only [pushBuf]
  split <;> rfl

theorem pushBuf_destroyed (s : St) (c : Buf) (r : Bool) :
    (pushBuf s c r).1.destroyed = s.destroyed := by
  simp only [pushBuf]
  split <;> rfl

theorem pushNull_errMsg (s : St) : (pushNull s).errMsg = s.errMsg := by
  simp only [pushNull]
  split <;> rfl

theorem destroyS_none_errMsg {s : St} (h0 : s.errMsg = none) :
    (destroyS s none).errMsg = none := by
  simp only [destroyS]
  split
  · exact h0
  · rfl

theorem close_errMsg_none {s : St} (h0 : s.errMsg = none) :
    (close s).errMsg = none :=
  destroyS_none_errMsg ((pushNull_errMsg s).trans h0)

theorem tryEnd_errMsg_none {s : St} (h0 : s.errMsg = none) :
    (tryEnd s).errMsg = none := by
  simp only [tryEnd]
  split
  · exact close_errMsg_none (by simpa using h0)
  · exact h0

theorem destroyS_live {s : St} (hd : s.destroyed = false) (e : Option String) :
    destroyS s e
      = { s with destroyed := true, sendQueue := [], buffered := [],
                 errMsg := e, destroyCount := s.destroyCount + 1 } := by
  simp [destroyS, hd]

theorem errMsg_trySendChunk {s : St} {b : Buf} {r : Bool}
    (h0 : s.errMsg = none)
    (h : (trySendChunk s b r).1.errMsg ≠ s.errMsg) :
    s.sendQueue.length = s.maxStackedBuffers ∧ s.destroyed = false ∧
    b.bytes ≠ [] ∧ (trySendChunk s b r).1.errMsg = some overflowMsg := by
  by_cases hb : b.bytes = []
  · rw [trySendChunk_empty hb r] at h
    exact absurd (by rw [show ((tryEnd s, true) : St × Bool).1 = tryEnd s
      from rfl, tryEnd_errMsg_none h0, h0]) h
  · by_cases h2 : (pushBuf s (createBufferCopy b) r).2 = false
    · by_cases h3 : (pushBuf s (createBufferCopy b) r).1.sendQueue.length
        = (pushBuf s (createBufferCopy b) r).1.maxStackedBuffers
      · rw [trySendChunk_overflow hb h2 h3] at h ⊢
        by_cases hd : (pushBuf s (createBufferCopy b) r).1.destroyed = true
        · rw [show ((destroyS (pushBuf s (createBufferCopy b) r).1
              (some overflowMsg), false) : St × Bool).1
              = destroyS (pushBuf s (createBufferCopy b) r).1 (some overflowMsg)
              from rfl, destroyS_dead hd, pushBuf_errMsg] at h
          exact absurd rfl h
        · have hd' : (pushBuf s (createBufferCopy b) r).1.destroyed = false := by
            cases hx : (pushBuf s (createBufferCopy b) r).1.destroyed
            · rfl
            · exact absurd hx hd
          refine ⟨?_, ?_, hb, ?_⟩
          · rw [pushBuf_sendQueue, pushBuf_max] at h3
            exact h3
          · rw [pushBuf_destroyed] at hd'
            exact hd'
          · rw [show ((destroyS (pushBuf s (createBufferCopy b) r).1
                (some overflowMsg), false) : St × Bool).1
                = destroyS (pushBuf s (createBufferCopy b) r).1
                    (some overflowMsg) from rfl, destroyS_live hd']
      · rw [trySendChunk_enqueue hb h2 h3] at h
        simp [pushBuf_errMsg] at h
    · rw [trySendChunk_sent hb h2] at h
      rw [show (((pushBuf s (createBufferCopy b) r).1, true) : St × Bool).1
          = (pushBuf s (createBufferCopy b) r).1 from rfl,
        pushBuf_errMsg] at h
      exact absurd rfl h

theorem overflowStep {s : St} (hd : s.destroyed = false) (he : s.ended = false)
    {a : List Nat} (ha : a ≠ [])
    (hfull : s.sendQueue.length = s.maxStackedBuffers) :
    step s (dataEv a)
      = { s with destroyed := true, sendQueue := [], buffered := [],
                 errMsg := some overflowMsg,
                 destroyCount := s.destroyCount + 1 } := by
  show onData s a false false = _
  rw [onData_notLast]
  have hpush : pushBuf s (createBufferCopy (bufferFrom a)) false
      = ({ s with buffered := s.buffered ++ [⟨true, a⟩] }, false) := by
    rw [saturatedPush hd he]
    rfl
  have h2 : (pushBuf s (createBufferCopy (bufferFrom a)) false).2 = false := by
    rw [hpush]
  have h3 : (pushBuf s (createBufferCopy (bufferFrom a)) false).1.sendQueue.length
      = (pushBuf s (createBufferCopy (bufferFrom a))
          false).1.maxStackedBuffers := by
    rw [hpush]
    exact hfull
  rw [trySendChunk_overflow (by simpa [bufferFrom] using ha) h2 h3, hpush]
  rw [show ((destroyS { s with buffered := s.buffered ++ [⟨true, a⟩] }
      (some overflowMsg), false) : St × Bool).1
      = destroyS { s with buffered := s.buffered ++ [⟨true, a⟩] }
          (some overflowMsg) from rfl,
    destroyS_live (show ({ s with
      buffered := s.buffered ++ [⟨true, a⟩] } : St).destroyed = false from hd)]

theorem tryEnd_nonempty {s : St} (h : s.sendQueue ≠ []) :
    tryEnd s = { s with shouldClose := true } := by
  simp only [tryEnd]
  rw [if_neg]
  intro hc
  exact h (List.length_eq_zero.mp (by simpa using hc))

theorem nonemptyChunks_of (l : List Buf) (h : ∀ c ∈ l, c.bytes ≠ []) :
    nonemptyChunks l = true := by
  simp only [nonemptyChunks, List.all_eq_true]
  intro c hc
  simpa using h c hc

/-- C1: the spec claims that for every execution in which the pending queue
never overflows, the bytes the consumer observes, concatenated, equal the
bytes fed in, with no duplication.  The code violates this: Node's `push`
appends the chunk to the internal buffer even when it returns `false`, yet
`#trySendChunk` also queues the chunk and re-sends it on the next drain, so
a single 4-byte chunk fed under backpressure is observed twice by the
consumer although the bridge is never destroyed and reports no error. -/
theorem C1_bytes_duplicated_under_backpressure :
    fedBytes [Ev.data [1, 2, 3, 4] false false, Ev.read [true], Ev.read []]
      = [1, 2, 3, 4] ∧
    (runS none [Ev.data [1, 2, 3, 4] false false, Ev.read [true],
      Ev.read []]).destroyed = false ∧
    (runS none [Ev.data [1, 2, 3, 4] false false, Ev.read [true],
      Ev.read []]).errMsg = none ∧
    observedBytes (runS none [Ev.data [1, 2, 3, 4] false false, Ev.read [true],
      Ev.read []]) = [1, 2, 3, 4, 1, 2, 3, 4] :=
  ⟨rfl, rfl, rfl, rfl⟩

/-- C2: the spec claims a drain request pops delivered heads and, at the
first failed attempt, leaves the failed head at the front with the rest of
the queue unchanged.  The code instead appends the failed head a second
time at the tail (and the failed push still delivered a copy into the
internal buffer): draining `[[1], [2]]` with a saturated consumer yields
the queue `[[1], [2], [1]]`, not `[[1], [2]]`. -/
theorem C2_failed_head_requeued_at_tail :
    (runS none [Ev.data [1] false false, Ev.data [2] false false,
      Ev.read [false]]).sendQueue.map Buf.bytes = [[1], [2], [1]] ∧
    (runS none [Ev.data [1] false false, Ev.data [2] false false,
      Ev.read [false]]).buffered.map Buf.bytes = [[1]] ∧
    (runS none [Ev.data [1] false false, Ev.data [2] false false,
      Ev.read [false]]).destroyed = false :=
  ⟨rfl, rfl, rfl⟩

/-- C3: in every reachable state the pending queue holds at most
`maxStackedBuffers` chunks, and the instant one more chunk would exceed the
threshold — a non-empty chunk whose push reports saturation while the queue
is at the threshold — the bridge destroys itself with the backpressure
error and clears the queue instead of enqueueing. -/
theorem C3_queue_bounded_and_overflow_destroys (cfg : Option Nat)
    (evs : List Ev) (s : St) (b : Buf)
    (h1 : s.sendQueue.length = s.maxStackedBuffers)
    (h2 : s.destroyed = false) (h3 : s.ended = false) (h4 : b.bytes ≠ []) :
    (runS cfg evs).sendQueue.length ≤ (runS cfg evs).maxStackedBuffers ∧
    (trySendChunk s b false).1.destroyed = true ∧
    (trySendChunk s b false).1.errMsg = some overflowMsg ∧
    (trySendChunk s b false).1.sendQueue = [] := by
  have hpush : pushBuf s (createBufferCopy b) false
      = ({ s with buffered := s.buffered ++ [createBufferCopy b] }, false) :=
    saturatedPush h2 h3 (createBufferCopy b)
  have hp2 : (pushBuf s (createBufferCopy b) false).2 = false := by
    rw [hpush]
  have hp3 : (pushBuf s (createBufferCopy b) false).1.sendQueue.length
      = (pushBuf s (createBufferCopy b) false).1.maxStackedBuffers := by
    rw [hpush]
    exact h1
  have hfin : (trySendChunk s b false).1
      = destroyS (pushBuf s (createBufferCopy b) false).1 (some overflowMsg) := by
    rw [trySendChunk_overflow h4 hp2 hp3]
  rw [hfin, hpush,
    destroyS_live (show ({ s with
      buffered := s.buffered ++ [createBufferCopy b] } : St).destroyed = false
      from h2)]
  exact ⟨(inv_runS cfg evs).1, rfl, rfl, rfl⟩

theorem C3_witness :
    (runS none []).sendQueue.length ≤ (runS none []).maxStackedBuffers ∧
    (trySendChunk sampleQ1 ⟨false, [2]⟩ false).1.destroyed = true ∧
    (trySendChunk sampleQ1 ⟨false, [2]⟩ false).1.errMsg = some overflowMsg ∧
    (trySendChunk sampleQ1 ⟨false, [2]⟩ false).1.sendQueue = [] :=
  C3_queue_bounded_and_overflow_destroys none [] sampleQ1 ⟨false, [2]⟩
    (by decide) (by decide) (by decide) (by decide)

/-- C4 counterexample: the claim also asserts that no chunk arriving after
the triggering one is retained in the queue.  That part is false: with
`maxStackedBuffers = 2` and a saturated consumer, the third chunk triggers
the overflow destruction, yet a fourth chunk fed afterwards is appended to
the cleared `#sendQueue` (its push on the destroyed stream returns `false`
and the enqueue branch has no destroyed-guard), leaving the queue `[[4]]`
rather than empty. -/
theorem C4_counterexample :
    (runS (some 2) [dataEv [1], dataEv [2], dataEv [3],
      dataEv [4]]).destroyed = true ∧
    (runS (some 2) [dataEv [1], dataEv [2], dataEv [3],
      dataEv [4]]).errMsg = some overflowMsg ∧
    (runS (some 2) [dataEv [1], dataEv [2], dataEv [3],
      dataEv [4]]).sendQueue = [⟨false, [4]⟩] :=
  ⟨rfl, rfl, rfl⟩

/-- C4 (amended): with `maxStackedBuffers = k` and a consumer that never
drains (no drain events, every push reports saturation), feeding `k + 1`
non-empty chunks destroys the bridge with the backpressure error exactly
once (`destroyCount` stays 1 under any continuation); the consumer observes
no bytes, then and at any later point — although, as the counterexample
shows, a chunk arriving after the triggering one may still be re-queued
into the defunct queue; and the error is raised only in `#trySendChunk`,
when a non-empty chunk fails its push while the queue is already at the
threshold on a not-yet-destroyed bridge. -/
theorem C4_overflow_exactly_once (k : Nat) (chunks : List (List Nat))
    (extra : List Ev) (hk : 0 < k) (hlen : chunks.length = k + 1)
    (hne : ∀ c ∈ chunks, c ≠ []) :
    (runS (some k) (chunks.map dataEv ++ extra)).destroyed = true ∧
    (runS (some k) (chunks.map dataEv ++ extra)).errMsg = some overflowMsg ∧
    (runS (some k) (chunks.map dataEv ++ extra)).destroyCount = 1 ∧
    (runS (some k) (chunks.map dataEv ++ extra)).observed = [] ∧
    (∀ (t : St) (b : Buf) (r : Bool), t.errMsg = none →
      (trySendChunk t b r).1.errMsg ≠ t.errMsg →
      t.sendQueue.length = t.maxStackedBuffers ∧ t.destroyed = false ∧
      b.bytes ≠ [] ∧ (trySendChunk t b r).1.errMsg = some overflowMsg) := by
  have hk' : k ≠ 0 := Nat.pos_iff_ne_zero.mp hk
  obtain ⟨a, hdrop⟩ : ∃ a, chunks.drop k = [a] := by
    apply List.length_eq_one.mp
    rw [List.length_drop, hlen]
    omega
  have ha : a ≠ [] :=
    hne a (List.drop_subset k chunks (by rw [hdrop]; simp))
  have htk : (List.take k chunks).length = k := by
    rw [List.length_take, hlen]
    omega
  have hbase := feedFalse (chunks.take k) (initSt (some k))
    (fun x hx => hne x (List.take_subset k chunks hx)) rfl rfl
    (by simp [initSt, orDefault, hk', htk])
  have hsplitmap : chunks.map dataEv
      = (chunks.take k).map dataEv ++ [dataEv a] := by
    conv_lhs => rw [← List.take_append_drop k chunks]
    rw [List.map_append, hdrop]
    rfl
  have hrun : runS (some k) (chunks.map dataEv ++ extra)
      = List.foldl step
          (step (List.foldl step (initSt (some k)) ((chunks.take k).map dataEv))
            (dataEv a)) extra := by
    simp only [runS]
    rw [List.foldl_append, hsplitmap, List.foldl_append]
    rfl
  have hd' : (List.foldl step (initSt (some k))
      ((chunks.take k).map dataEv)).destroyed = false := by
    rw [hbase]
    rfl
  have he' : (List.foldl step (initSt (some k))
      ((chunks.take k).map dataEv)).ended = false := by
    rw [hbase]
    rfl
  have hfull' : (List.foldl step (initSt (some k))
        ((chunks.take k).map dataEv)).sendQueue.length
      = (List.foldl step (initSt (some k))
          ((chunks.take k).map dataEv)).maxStackedBuffers := by
    rw [hbase]
    simp [initSt, orDefault, hk', htk]
    omega
  have hcount : (List.foldl step (initSt (some k))
      ((chunks.take k).map dataEv)).destroyCount = 0 := by
    rw [hbase]
    rfl
  have hobs : (List.foldl step (initSt (some k))
      ((chunks.take k).map dataEv)).observed = [] := by
    rw [hbase]
    rfl
  have hover := overflowStep hd' he' ha hfull'
  have hT : (step (List.foldl step (initSt (some k))
      ((chunks.take k).map dataEv)) (dataEv a)).destroyed = true := by
    rw [hover]
  have hfr := foldl_dead hT extra
  rw [hrun]
  refine ⟨hfr.2.2.1.trans hT, hfr.2.2.2.1.trans (by rw [hover]),
    hfr.2.2.2.2.1.trans (by
      rw [hover]
      show (List.foldl step (initSt (some k))
        ((chunks.take k).map dataEv)).destroyCount + 1 = 1
      rw [hcount]),
    hfr.1.trans (by
      rw [hover]
      show (List.foldl step (initSt (some k))
        ((chunks.take k).map dataEv)).observed = []
      exact hobs),
    fun t b r h0 hh => errMsg_trySendChunk h0 hh⟩

theorem C4_witness :
    (runS (some 1) [dataEv [1], dataEv [2]]).destroyed = true ∧
    (runS (some 1) [dataEv [1], dataEv [2]]).errMsg = some overflowMsg ∧
    (runS (some 1) [dataEv [1], dataEv [2]]).destroyCount = 1 ∧
    (runS (some 1) [dataEv [1], dataEv [2]]).observed = [] := by
  have h := C4_overflow_exactly_once 1 [[1], [2]] [] (by decide) (by decide)
    (by decide)
  exact ⟨h.1, h.2.1, h.2.2.1, h.2.2.2.1⟩

/-- C5: the spec claims every chunk the bridge retains is copied into owned
memory before the ingestion callback returns — in particular a chunk
appended to the pending queue is a fresh copy, never a view aliasing the
source's buffer.  The code violates this: only the chunk pushed downstream
goes through `createBufferCopy`; the chunk stored in `#sendQueue` is the
`Buffer.from(chunk)` view, which shares memory with the uWS `ArrayBuffer`
that the source invalidates after the callback. -/
theorem C5_queued_chunk_aliases_source :
    (runS none [Ev.data [1] false false]).sendQueue.map Buf.owned = [false] ∧
    (runS none [Ev.data [1] false false]).buffered.map Buf.owned = [true] :=
  ⟨rfl, rfl⟩

/-- C6: receiving the final-chunk signal while the pending queue is
non-empty only sets the closing flag — it sends no end-of-data signal —
and in every execution, whenever end-of-data has been signalled, the
pending queue was empty at the instant of the signal. -/
theorem C6_end_deferred_until_drained (s : St) (cfg : Option Nat)
    (evs : List Ev) (h1 : s.sendQueue ≠ [])
    (h2 : (runS cfg evs).ended = true) :
    tryEnd s = { s with shouldClose := true } ∧
    (runS cfg evs).queueLenAtEnd = some 0 :=
  ⟨tryEnd_nonempty h1, (inv_runS cfg evs).2.2.2.1 h2⟩

theorem C6_witness :
    tryEnd sampleQ1 = { sampleQ1 with shouldClose := true } ∧
    (runS none [Ev.data [] true false]).queueLenAtEnd = some 0 :=
  C6_end_deferred_until_drained sampleQ1 none [Ev.data [] true false]
    (by decide) (by decide)

/-- C7: in every execution the end-of-data signal fires at most once, and
if it has fired then the closing flag had been set and the pending queue
was empty at the instant of the signal. -/
theorem C7_close_at_most_once (cfg : Option Nat) (evs : List Ev) :
    (runS cfg evs).endSignals ≤ 1 ∧
    ((runS cfg evs).ended = true →
      (runS cfg evs).shouldClose = true ∧
      (runS cfg evs).queueLenAtEnd = some 0) := by
  obtain ⟨-, h2, h3, h4, -, -, -⟩ := inv_runS cfg evs
  refine ⟨?_, fun he => ⟨h3 he, h4 he⟩⟩
  rw [h2]
  split <;> simp

theorem C7_witness :
    (runS none [Ev.data [] true false]).endSignals ≤ 1 ∧
    (runS none [Ev.data [] true false]).shouldClose = true ∧
    (runS none [Ev.data [] true false]).queueLenAtEnd = some 0 :=
  ⟨(C7_close_at_most_once none [Ev.data [] true false]).1,
   (C7_close_at_most_once none [Ev.data [] true false]).2 (by decide)⟩

/-- C8: a zero-length chunk is handled by `#trySendChunk` exactly as a
successful no-op that re-checks the closing condition (`tryEnd`), and in
every reachable state no zero-length chunk sits in the pending queue, in
the internal buffer, or in the consumer's output. -/
theorem C8_empty_chunk_not_forwarded (s : St) (b : Buf) (r : Bool)
    (cfg : Option Nat) (evs : List Ev) (h : b.bytes = []) :
    trySendChunk s b r = (tryEnd s, true) ∧
    nonemptyChunks (runS cfg evs).sendQueue = true ∧
    nonemptyChunks (runS cfg evs).buffered = true ∧
    nonemptyChunks (runS cfg evs).observed = true := by
  obtain ⟨-, -, -, -, h5, h6, h7⟩ := inv_runS cfg evs
  exact ⟨trySendChunk_empty h r, nonemptyChunks_of _ h5,
    nonemptyChunks_of _ h6, nonemptyChunks_of _ h7⟩

theorem C8_witness :
    trySendChunk sampleQ1 ⟨false, []⟩ true = (tryEnd sampleQ1, true) ∧
    nonemptyChunks (runS none [Ev.data [1] false false,
      Ev.read [true]]).sendQueue = true ∧
    nonemptyChunks (runS none [Ev.data [1] false false,
      Ev.read [true]]).buffered = true ∧
    nonemptyChunks (runS none [Ev.data [1] false false,
      Ev.read [true]]).observed = true :=
  C8_empty_chunk_not_forwarded sampleQ1 ⟨false, []⟩ true none
    [Ev.data [1] false false, Ev.read [true]] (by decide)

/-- C9 counterexample: the claim says that once the bridge is destroyed the
pending queue holds no chunk in every later reachable state and no
subsequent ingestion call stores a chunk in the queue.  With
`maxStackedBuffers = 1` and a saturated consumer, the third chunk arrives
after the overflow destruction and is nevertheless appended to
`#sendQueue` (the post-destruction queue is `[[3]]`, not `[]`). -/
theorem C9_counterexample :
    (runS (some 1) [dataEv [1], dataEv [2], dataEv [3]]).destroyed = true ∧
    (runS (some 1) [dataEv [1], dataEv [2], dataEv [3]]).sendQueue
      = [⟨false, [3]⟩] :=
  ⟨rfl, rfl⟩

/-- C9 (amended): every step that performs an effective destroy leaves the
pending queue empty at that instant, and from any destroyed state no later
event ever changes the consumer output, the internal buffer, the error, or
the destruction status — chunks ingested after destruction are never
delivered (although, as the counterexample shows, they may be re-queued). -/
theorem C9_destroyed_clears_and_never_delivers (s t : St) (e : Ev)
    (evs : List Ev) (h1 : (step s e).destroyCount ≠ s.destroyCount)
    (h2 : t.destroyed = true) :
    (step s e).sendQueue = [] ∧
    (List.foldl step t evs).observed = t.observed ∧
    (List.foldl step t evs).buffered = t.buffered ∧
    (List.foldl step t evs).destroyed = true ∧
    (List.foldl step t evs).errMsg = t.errMsg := by
  have hf := foldl_dead h2 evs
  exact ⟨destroyCount_step h1, hf.1, hf.2.1, hf.2.2.1.trans h2, hf.2.2.2.1⟩

theorem C9_witness :
    (step (initSt none) (Ev.abort none)).sendQueue = [] ∧
    (List.foldl step sampleDead [dataEv [5]]).observed
      = sampleDead.observed ∧
    (List.foldl step sampleDead [dataEv [5]]).buffered
      = sampleDead.buffered ∧
    (List.foldl step sampleDead [dataEv [5]]).destroyed = true ∧
    (List.foldl step sampleDead [dataEv [5]]).errMsg = sampleDead.errMsg :=
  C9_destroyed_clears_and_never_delivers (initSt none) sampleDead
    (Ev.abort none) [dataEv [5]] (by decide) (by decide)

/-- C10: the constructor computes `config.maxStackedBuffers || 25`, so the
default 25 applies not only when the option is absent but for any falsy
value — in particular a configured 0 yields 25, a positive value is kept,
and no configuration can make the effective threshold 0. -/
theorem C10_falsy_threshold_defaults (n : Nat) (cfg : Option Nat)
    (h : 0 < n) :
    (initSt (some 0)).maxStackedBuffers = 25 ∧
    (initSt none).maxStackedBuffers = 25 ∧
    (initSt (some n)).maxStackedBuffers = n ∧
    (initSt cfg).maxStackedBuffers ≠ 0 := by
  refine ⟨rfl, rfl, ?_, ?_⟩
  · simp [initSt, orDefault, Nat.pos_iff_ne_zero.mp h]
  · cases cfg with
    | none => simp [initSt, orDefault]
    | some m =>
      by_cases hm : m = 0
      · simp [initSt, orDefault, hm]
      · simp [initSt, orDefault, hm]

theorem C10_witness :
    (initSt (some 0)).maxStackedBuffers = 25 ∧
    (initSt none).maxStackedBuffers = 25 ∧
    (initSt (some 3)).maxStackedBuffers = 3 ∧
    (initSt (some 0)).maxStackedBuffers ≠ 0 :=
  C10_falsy_threshold_defaults 3 (some 0) (by decide)

end RPS
